import Mathlib

/-!
Verification development for the flics-app Bokeh application (`app/main.py`).

The application is a single reactive script: it browses TIFF image stacks,
lets the user draw rectangular ROIs and directional vectors on a frame, and
persists per-image analysis state to an xarray dataset file (`db.nc`) keyed
by file path.

Shallow embedding conventions used throughout this file:
* numpy arrays are nested `List`s; a float that may be the NaN padding
  sentinel is `Option ℚ` with `none` standing for NaN;
* Python functions that may raise are `Option`/`Except` valued, with `none`
  (or an error value) standing for the raised exception;
* the filesystem is an association list from paths to file contents;
* Python `round` (banker's rounding), integer floor division `//`, `int()`
  parsing and sequence slicing are modelled explicitly below;
* xarray dataset values are compared by structural (value) equality; the
  in-memory/object-representation details of `ndarray.tolist()` are outside
  the embedding.
-/

namespace Flics

/-- Python's `round` on an exact rational: round half to even. -/
def pyRound (q : ℚ) : ℤ :=
  let f : ℤ := ⌊q⌋
  let frac : ℚ := q - f
  if frac < 1/2 then f
  else if 1/2 < frac then f + 1
  else if f % 2 = 0 then f else f + 1

/-- The number named by a list of decimal digit characters. -/
def digitsVal (ds : List Char) : ℕ :=
  ds.foldl (fun n c => n * 10 + (c.toNat - 48)) 0

/-- Python's `int(s)` on a string: an optional sign followed by decimal
digits; `none` when `ValueError` is raised. -/
def pyInt (s : String) : Option ℤ :=
  match s.data with
  | '-' :: ds =>
    if ds = [] ∨ ¬ ds.all Char.isDigit then none
    else some (-(digitsVal ds : ℤ))
  | '+' :: ds =>
    if ds = [] ∨ ¬ ds.all Char.isDigit then none
    else some (digitsVal ds)
  | ds =>
    if ds = [] ∨ ¬ ds.all Char.isDigit then none
    else some (digitsVal ds)

/-- Python's `str.endswith`: a suffix test on the characters. -/
def pyEndsWith (s tail : String) : Bool := tail.data.isSuffixOf s.data

/-- Python sequence slicing `l[start:stop]` (step 1): negative indices count
from the end, and out-of-range bounds are clamped. -/
def pySlice {α : Type} (l : List α) (start stop : ℤ) : List α :=
  let n : ℤ := l.length
  let s : ℤ := if start < 0 then max (n + start) 0 else min start n
  let e : ℤ := if stop < 0 then max (n + stop) 0 else min stop n
  (l.drop s.toNat).take (e.toNat - s.toNat)

/-!
## File discovery: `get_full_path`

`get_full_path(relative_path)` filters the discovered image paths for those
ending in `relative_path` and takes element `[0]`; an `IndexError` is caught,
a failure message is printed and `None` is implicitly returned.  The result
is the returned value paired with whether the failure message was printed.
-/

/-- `get_full_path` from `app/main.py`, parametrised by the list of image
paths discovered under the base directory (`get_file_paths()`).  Second
component: whether the failure message was printed. -/
def get_full_path (image_paths : List String) (relative_path : String) :
    Option String × Bool :=
  match (image_paths.filter (fun f => pyEndsWith f relative_path)).head? with
  | some p => (some p, false)
  | none => (none, true)

/-!
## The on-disk dataset

A record of the dataset holds the seven data variables written by
`create_data_dict`; the dataset keys records by file path.
-/

/-- A 50-by-4 coordinate table; `none` entries are the NaN padding. -/
abbrev CoordTable : Type := List (List (Option ℚ))

/-- The per-path data variables stored in the dataset (`create_data_dict`). -/
structure DataRecord where
  projection_2d : List (List ℤ)
  line_rate : ℚ
  frame_rate : ℚ
  roi_data : CoordTable
  vector_data : CoordTable
  corr_calc_state : ℤ
  fitting_state : ℤ
deriving DecidableEq

/-- The dataset: records keyed by image file path, in concatenation order. -/
abbrev DB : Type := List (String × DataRecord)

/-- The empty dataset `xr.Dataset()`. -/
def emptyDB : DB := []

/-- The filesystem, as far as dataset files are concerned: an association
list from paths to dataset contents. -/
abbrev FileSys : Type := List (String × DB)

/-- `os.path.isfile`/content lookup on the modelled filesystem. -/
def fsLookup (fs : FileSys) (p : String) : Option DB := List.lookup p fs

/-!
## `get_db_path` and `read_db`
-/

/-- Errors raised by the modelled library calls. -/
inductive PyErr where
  | fileNotFound
  | zeroDivision
  | typeError
  | keyError
deriving DecidableEq

/-- `get_db_path`: joins `'db.nc'` onto the base directory when it is a
directory; otherwise falls through and implicitly returns `None`. -/
def get_db_path (base_dir : String) (isDir : Bool) : Option String :=
  if isDir then some (base_dir ++ "/db.nc") else none

/-- `xr.open_dataset`: raises `FileNotFoundError` for a missing file, and a
non-`FileNotFoundError` error when handed `None` instead of a path. -/
def open_dataset (fs : FileSys) (path : Option String) : Except PyErr DB :=
  match path with
  | none => .error .typeError
  | some p =>
    match fsLookup fs p with
    | some d => .ok d
    | none => .error .fileNotFound

/-- `read_db` from `app/main.py`: open the dataset at `get_db_path()`,
catching only `FileNotFoundError` (which yields the empty placeholder
dataset). -/
def read_db (fs : FileSys) (base_dir : String) (isDir : Bool) :
    Except PyErr DB :=
  match open_dataset fs (get_db_path base_dir isDir) with
  | .ok d => .ok d
  | .error .fileNotFound => .ok emptyDB
  | .error e => .error e

/-!
## `calculate_2d_projection`

The current image is a 3-dimensional time-stack, modelled as a list of
frames, each a list of rows of integer pixels.  `np.max(image, axis=0)` is
the elementwise maximum across the frames; it raises on an empty stack.
-/

/-- Elementwise maximum of two frames. -/
def frameMax (a b : List (List ℤ)) : List (List ℤ) :=
  List.zipWith (fun r s => List.zipWith max r s) a b

/-- `calculate_2d_projection` from `app/main.py`: `np.max(image, axis=0)`
on the 3-dimensional current image (`none` on an empty stack, where numpy
raises). -/
def calculate_2d_projection (image : List (List (List ℤ))) :
    Option (List (List ℤ)) :=
  match image with
  | [] => none
  | fr :: rest => some (rest.foldl frameMax fr)

/-- Pixel access `m[i][j]` with an irrelevant default. -/
def px (m : List (List ℤ)) (i j : ℕ) : ℤ := (m.getD i []).getD j 0

/-- A frame has `h` rows of `w` pixels each. -/
def FrameShape (h w : ℕ) (m : List (List ℤ)) : Prop :=
  m.length = h ∧ ∀ row ∈ m, row.length = w

instance (h w : ℕ) (m : List (List ℤ)) : Decidable (FrameShape h w m) :=
  inferInstanceAs (Decidable (m.length = h ∧ ∀ row ∈ m, row.length = w))

/-!
## ROI and vector selections

`roi_source.data` holds four parallel columns `x`, `y`, `width`, `height`;
`vector_source.data` holds columns `xs` and `ys`, each entry a start/end
pair.  All coordinates are floats, modelled as rationals.
-/

/-- The ROI selection columns (`roi_source.data`). -/
structure RoiData where
  x : List ℚ
  y : List ℚ
  width : List ℚ
  height : List ℚ
deriving DecidableEq

/-- The vector selection columns (`vector_source.data`); each entry of `xs`
is the pair `[x_start, x_end]` and of `ys` the pair `[y_start, y_end]`. -/
structure VecData where
  xs : List (ℚ × ℚ)
  ys : List (ℚ × ℚ)
deriving DecidableEq

/-- `get_roi_params` from `app/main.py`: the `[x, y, width, height]` row of
the ROI at `index`; `none` when a list index is out of range
(`IndexError`). -/
def get_roi_params (rois : RoiData) (index : ℕ) : Option (List ℚ) :=
  match rois.x[index]?, rois.y[index]?,
      rois.width[index]?, rois.height[index]? with
  | some a, some b, some c, some d => some [a, b, c, d]
  | _, _, _, _ => none

/-- `get_vector_params` from `app/main.py`: the
`[x_start, x_end, y_start, y_end]` row of the vector at `index`; `none` on
`IndexError`. -/
def get_vector_params (vecs : VecData) (index : ℕ) : Option (List ℚ) :=
  match vecs.xs[index]?, vecs.ys[index]? with
  | some xp, some yp => some [xp.1, xp.2, yp.1, yp.2]
  | _, _ => none

/-- `np.full((50, 4), np.nan)`: fifty rows of four NaN sentinels. -/
def npFull50x4 : CoordTable := List.replicate 50 (List.replicate 4 none)

/-- The `for index in range(n): table[index, :] = params(index)` loop shared
by `get_roi_data_by_index` and `get_vector_data_by_index`: write the listed
row indices in order, failing (`none`) on a missing parameter row
(`IndexError` on the column lists) or a row index at or beyond the table's
row count (numpy out-of-bounds `IndexError`). -/
def fillRows (params : ℕ → Option (List ℚ)) :
    List ℕ → CoordTable → Option CoordTable
  | [], table => some table
  | index :: rest, table =>
    match params index with
    | none => none
    | some row =>
      if index < table.length then
        fillRows params rest (table.set index (row.map some))
      else none

/-- `get_roi_data_by_index` from `app/main.py`: a 50-by-4 NaN-filled table
whose first `len(roi_source.data['x'])` rows are overwritten with the ROI
parameter rows. -/
def get_roi_data_by_index (rois : RoiData) : Option CoordTable :=
  fillRows (get_roi_params rois) (List.range rois.x.length) npFull50x4

/-- `get_vector_data_by_index` from `app/main.py`: a 50-by-4 NaN-filled
table whose first `len(vector_source.data['xs'])` rows are overwritten with
the vector parameter rows. -/
def get_vector_data_by_index (vecs : VecData) : Option CoordTable :=
  fillRows (get_vector_params vecs) (List.range vecs.xs.length) npFull50x4

/-!
## Application state and `create_data_dict` / `create_coords_dict`
-/

/-- The pieces of widget/source state that `save` and its helpers read.
`line_rate_val`/`frame_rate_val` are the results of
`float(line_rate_input.value)`/`float(frame_rate_input.value)` (`none` when
`float()` raises `ValueError` on a non-numeric text value). -/
structure AppState where
  rois : RoiData
  vectors : VecData
  image : List (List (List ℤ))
  line_rate_val : Option ℚ
  frame_rate_val : Option ℚ
deriving DecidableEq

/-- `create_data_dict` from `app/main.py`: the seven data variables written
per path.  `none` when one of the constituent computations raises. -/
def create_data_dict (st : AppState) : Option DataRecord :=
  match calculate_2d_projection st.image, st.line_rate_val,
      st.frame_rate_val, get_roi_data_by_index st.rois,
      get_vector_data_by_index st.vectors with
  | some proj, some lr, some fr, some rd, some vd =>
    some { projection_2d := proj
           line_rate := lr
           frame_rate := fr
           roi_data := rd
           vector_data := vd
           corr_calc_state := 0
           fitting_state := 0 }
  | _, _, _, _, _ => none

/-- The coordinates attached to a newly created dataset
(`create_coords_dict`). -/
structure Coords where
  path : String
  pix_x : List ℕ
  pix_y : List ℕ
  time : List ℕ
  roi_num : List ℕ
  roi_loc : List String
  vector_num : List ℕ
  vector_loc : List String
deriving DecidableEq

/-- `create_coords_dict` from `app/main.py`: dimension coordinates derived
from the current image's shape, plus the fixed 50-slot ROI/vector axes. -/
def create_coords_dict (st : AppState) (path : String) : Coords :=
  { path := path
    pix_x := List.range ((st.image.headD []).headD []).length
    pix_y := List.range (st.image.headD []).length
    time := List.range st.image.length
    roi_num := List.range 50
    roi_loc := ["x", "y", "width", "height"]
    vector_num := List.range 50
    vector_loc := ["x_start", "x_end", "y_start", "y_end"] }

/-!
## `save`

`save` builds the data variables, then:
* no dataset file on disk: write a fresh single-record dataset;
* file exists and the current path is already a key: for each data variable
  compare the stored value with the in-memory one and assign only on
  inequality (the code has two syntactic branches for the scalar-path and
  multi-path layouts of the file, both performing this same comparison and
  selective assignment), then `os.remove` the file and write the updated
  dataset;
* file exists and the path is new: concatenate a fresh record along the
  `path` dimension, then `os.remove` the file and write the result.
-/

/-- The keys of the `create_data_dict` dictionary, in insertion order. -/
inductive Field where
  | projection_2d
  | line_rate
  | frame_rate
  | roi_data
  | vector_data
  | corr_calc_state
  | fitting_state
deriving DecidableEq

/-- The dictionary iteration order of `data_vars.items()`. -/
def Field.all : List Field :=
  [.projection_2d, .line_rate, .frame_rate, .roi_data, .vector_data,
   .corr_calc_state, .fitting_state]

/-- The value of one data variable, as compared and assigned by `save`. -/
inductive Val where
  | proj (p : List (List ℤ))
  | q (r : ℚ)
  | z (n : ℤ)
  | mat (m : CoordTable)
deriving DecidableEq

/-- Read one data variable of a record (`db[key]` at a fixed path). -/
def DataRecord.get : DataRecord → Field → Val
  | r, .projection_2d => .proj r.projection_2d
  | r, .line_rate => .q r.line_rate
  | r, .frame_rate => .q r.frame_rate
  | r, .roi_data => .mat r.roi_data
  | r, .vector_data => .mat r.vector_data
  | r, .corr_calc_state => .z r.corr_calc_state
  | r, .fitting_state => .z r.fitting_state

/-- The `db[key].loc[...].values.tolist() != value` test of the `save`
update loop, per data variable.  For `2d_projection`, `roi_data` and
`vector_data` the in-memory `value` is the `(dims, ndarray)` tuple built by
`create_data_dict` while the stored side is the nested list produced by
`tolist()`, and in Python a list never equals a tuple, so the test is true
regardless of the data (the NaN padding of the coordinate tables likewise
never compares equal to itself); for the scalar variables both sides are
plain numbers and the test is genuine numeric inequality. -/
def py_tolist_neq (f : Field) (stored newv : Val) : Bool :=
  match f with
  | .projection_2d => true
  | .roi_data => true
  | .vector_data => true
  | _ => stored != newv

/-- The `for key, value in data_vars.items()` loop of `save` on the record
stored at the current path: each field is assigned exactly when the
`tolist() != value` test is true — always for the three array-valued
variables, and on genuine numeric difference for the scalar ones. -/
def update_record (stored dv : DataRecord) : DataRecord :=
  { projection_2d :=
      if py_tolist_neq .projection_2d (stored.get .projection_2d)
          (dv.get .projection_2d) then dv.projection_2d
      else stored.projection_2d
    line_rate :=
      if py_tolist_neq .line_rate (stored.get .line_rate)
          (dv.get .line_rate) then dv.line_rate
      else stored.line_rate
    frame_rate :=
      if py_tolist_neq .frame_rate (stored.get .frame_rate)
          (dv.get .frame_rate) then dv.frame_rate
      else stored.frame_rate
    roi_data :=
      if py_tolist_neq .roi_data (stored.get .roi_data)
          (dv.get .roi_data) then dv.roi_data
      else stored.roi_data
    vector_data :=
      if py_tolist_neq .vector_data (stored.get .vector_data)
          (dv.get .vector_data) then dv.vector_data
      else stored.vector_data
    corr_calc_state :=
      if py_tolist_neq .corr_calc_state (stored.get .corr_calc_state)
          (dv.get .corr_calc_state) then dv.corr_calc_state
      else stored.corr_calc_state
    fitting_state :=
      if py_tolist_neq .fitting_state (stored.get .fitting_state)
          (dv.get .fitting_state) then dv.fitting_state
      else stored.fitting_state }

/-- The data variables the update loop assigns: those whose
`tolist() != value` test is true, in dictionary order. -/
def written_fields (stored dv : DataRecord) : List Field :=
  Field.all.filter (fun f => py_tolist_neq f (stored.get f) (dv.get f))

/-- A filesystem operation performed by `save`. -/
inductive FsOp where
  | remove (p : String)
  | write (p : String) (d : DB)
deriving DecidableEq

/-- Apply one filesystem operation. -/
def applyOp (fs : FileSys) (op : FsOp) : FileSys :=
  match op with
  | .remove p => fs.filter (fun e => e.1 ≠ p)
  | .write p d => (p, d) :: fs.filter (fun e => e.1 ≠ p)

/-- Apply a sequence of filesystem operations in order. -/
def applyOps (fs : FileSys) (ops : List FsOp) : FileSys :=
  ops.foldl applyOp fs

/-- What a run of `save` produced: the dataset it ended up writing, the
filesystem operations it performed in order, and the data variables the
existing-path update loop assigned (empty outside that branch). -/
structure SaveOut where
  db : DB
  ops : List FsOp
  written : List Field
deriving DecidableEq

/-- `save` from `app/main.py`.  `path` is the current image's full path
(`get_full_path(image_select.value)`) and `db_path` the dataset file path
(`get_db_path()`).  `none` when `create_data_dict` raises. -/
def save (st : AppState) (fs : FileSys) (path db_path : String) :
    Option SaveOut :=
  match create_data_dict st with
  | none => none
  | some data_vars =>
    match fsLookup fs db_path with
    | some db =>
      if path ∈ db.map Prod.fst then
        match List.lookup path db with
        | some stored =>
          let newdb : DB := db.map
            (fun e =>
              if e.1 = path then (e.1, update_record e.2 data_vars) else e)
          some { db := newdb
                 ops := [.remove db_path, .write db_path newdb]
                 written := written_fields stored data_vars }
        | none => none
      else
        let coords := create_coords_dict st path
        let newdb : DB := db ++ [(coords.path, data_vars)]
        some { db := newdb
               ops := [.remove db_path, .write db_path newdb]
               written := [] }
    | none =>
      let coords := create_coords_dict st path
      let newdb : DB := [(coords.path, data_vars)]
      some { db := newdb
             ops := [.write db_path newdb]
             written := [] }

/-!
## `get_roi_data`

Extracts the rectangular ROI region from one frame of the current image:
round the stored centre and dimensions, halve the dimensions with integer
floor division, and slice the frame.
-/

/-- `get_roi_data` from `app/main.py`: the sub-image
`image[frame, y_start:y_end, x_start:x_end]` for the ROI at `roi_index`;
`none` when a column list index or the frame index is out of range. -/
def get_roi_data (rois : RoiData) (image : List (List (List ℤ)))
    (roi_index frame : ℕ) : Option (List (List ℤ)) := do
  let wq ← rois.width[roi_index]?
  let hq ← rois.height[roi_index]?
  let xq ← rois.x[roi_index]?
  let yq ← rois.y[roi_index]?
  let width := pyRound wq
  let height := pyRound hq
  let x_center := pyRound xq
  let y_center := pyRound yq
  let x_start := x_center - Int.fdiv width 2
  let x_end := x_center + Int.fdiv width 2
  let y_start := y_center - Int.fdiv height 2
  let y_end := y_center + Int.fdiv height 2
  let fr ← image[frame]?
  pure ((pySlice fr y_start y_end).map (fun row => pySlice row x_start x_end))

/-!
## Metadata parameters and `get_string`

`raw_source.data['meta'][0]` is the ScanImage metadata dictionary; a `none`
metadata models both a missing entry (`get_current_metadata` returning
`None`) and a falsy (empty) dictionary, which every getter guards with
`if meta:`.  A truthy dictionary may still lack the `'FrameData'` entry, or
that entry may lack any of the `SI` keys the getters subscript — a missing
key raises `KeyError` inside the getter.
-/

/-- The `meta['FrameData']` dictionary: each `SI` key the getters read may
be present or absent (`none`, raising `KeyError` when subscripted). -/
structure FrameData where
  scanFrameRate : Option ℚ
  linePeriod : Option ℚ
  linesPerFrame : Option ℚ
  pixelsPerLine : Option ℚ
  scanZoomFactor : Option ℚ
deriving DecidableEq

/-- A truthy ScanImage metadata dictionary: the `'FrameData'` entry may be
present or absent (`none`, raising `KeyError` when subscripted). -/
structure MetaDict where
  frameData : Option FrameData
deriving DecidableEq

/-- The widget/metadata state the parameter getters read: the current
metadata and the text of `fov_input`. -/
structure MetaState where
  meta : Option MetaDict
  fov_input : String
deriving DecidableEq

/-- Subscript `meta['FrameData']` and then the given `SI` key, raising
`KeyError` on a missing key. -/
def frameDataKey (m : MetaDict) (key : FrameData → Option ℚ) :
    Except PyErr ℚ :=
  match m.frameData with
  | none => .error .keyError
  | some fd =>
    match key fd with
    | none => .error .keyError
    | some v => .ok v

/-- `get_frame_rate`: the scan frame rate, or `None` without metadata;
missing dictionary keys raise `KeyError`. -/
def get_frame_rate (st : MetaState) : Except PyErr (Option ℚ) :=
  match st.meta with
  | some m => (frameDataKey m FrameData.scanFrameRate).map some
  | none => .ok none

/-- `get_line_rate`: the reciprocal of the line period, or `None` without
metadata; missing keys raise `KeyError` and `1 / line_period` raises on a
zero period. -/
def get_line_rate (st : MetaState) : Except PyErr (Option ℚ) :=
  match st.meta with
  | some m =>
    match frameDataKey m FrameData.linePeriod with
    | .error e => .error e
    | .ok v =>
      if v = 0 then .error .zeroDivision else .ok (some (1 / v))
  | none => .ok none

/-- `get_number_of_rows`: lines per frame, or `None` without metadata;
missing keys raise `KeyError`. -/
def get_number_of_rows (st : MetaState) : Except PyErr (Option ℚ) :=
  match st.meta with
  | some m => (frameDataKey m FrameData.linesPerFrame).map some
  | none => .ok none

/-- `get_number_of_columns`: pixels per line, or `None` without metadata;
missing keys raise `KeyError`. -/
def get_number_of_columns (st : MetaState) : Except PyErr (Option ℚ) :=
  match st.meta with
  | some m => (frameDataKey m FrameData.pixelsPerLine).map some
  | none => .ok none

/-- `get_zoom_factor`: the scan zoom factor, or `None` without metadata;
missing keys raise `KeyError`. -/
def get_zoom_factor (st : MetaState) : Except PyErr (Option ℚ) :=
  match st.meta with
  | some m => (frameDataKey m FrameData.scanZoomFactor).map some
  | none => .ok none

/-- `get_fov`: `int(fov_input.value)`, with `ValueError` caught (a message
is printed and `None` returned). -/
def get_fov (st : MetaState) : Option ℤ := pyInt st.fov_input

/-- `calc_x_pixel_to_micron`: columns divided by FOV times zoom; only the
`TypeError` from a `None` operand is caught (yielding `None`), so a
`KeyError` from a constituent getter propagates, as does a zero
denominator. -/
def calc_x_pixel_to_micron (st : MetaState) : Except PyErr (Option ℚ) :=
  match get_number_of_columns st, get_fov st, get_zoom_factor st with
  | .error e, _, _ => .error e
  | _, _, .error e => .error e
  | .ok (some n), some f, .ok (some z) =>
    if (f : ℚ) * z = 0 then .error .zeroDivision
    else .ok (some (n / ((f : ℚ) * z)))
  | _, _, _ => .ok none

/-- `calc_y_pixel_to_micron`: rows divided by FOV times zoom, as for
`calc_x_pixel_to_micron`. -/
def calc_y_pixel_to_micron (st : MetaState) : Except PyErr (Option ℚ) :=
  match get_number_of_rows st, get_fov st, get_zoom_factor st with
  | .error e, _, _ => .error e
  | _, _, .error e => .error e
  | .ok (some n), some f, .ok (some z) =>
    if (f : ℚ) * z = 0 then .error .zeroDivision
    else .ok (some (n / ((f : ℚ) * z)))
  | _, _, _ => .ok none

/-- `PARAM_GETTERS` from `app/main.py`: the parameter-name-to-getter
dictionary, in insertion order. -/
def PARAM_GETTERS : List (String × (MetaState → Except PyErr (Option ℚ))) :=
  [("zoom_factor", get_zoom_factor),
   ("n_rows", get_number_of_rows),
   ("n_columns", get_number_of_columns),
   ("frame_rate", get_frame_rate),
   ("line_rate", get_line_rate),
   ("x_pixel_to_micron", calc_x_pixel_to_micron),
   ("y_pixel_to_micron", calc_y_pixel_to_micron)]

/-- Python's `str()` on a numeric value, modelled as the decimal rendering
of the rational (sign, digits and a possible fraction slash; Python's
rendering of a float likewise consists of sign, digits and punctuation). -/
def pyStr (v : ℚ) : String :=
  if v.den = 1 then Int.repr v.num
  else Int.repr v.num ++ "/" ++ Nat.repr v.den

/-- `get_string` from `app/main.py`: look the parameter up in
`PARAM_GETTERS` and call the getter inside a `try` whose `except KeyError`
yields `'INVALID'` — so it catches both the lookup's `KeyError` (an absent
parameter name) and a `KeyError` raised inside the getter by the
`meta['FrameData'][...]` subscripts; a truthy value renders as
`str(value)`, a falsy one (`None` or `0`) as `'---'`, and any other
exception propagates. -/
def get_string (st : MetaState) (param : String) : Except PyErr String :=
  match List.lookup param PARAM_GETTERS with
  | none => .ok "INVALID"
  | some getter =>
    match getter st with
    | .error .keyError => .ok "INVALID"
    | .error e => .error e
    | .ok none => .ok "---"
    | .ok (some v) => .ok (if v = 0 then "---" else pyStr v)

/-!
# Theorems

The claims of the specification, settled against the embedding above.
-/

/-- Claim C4: For every relative path with no match among the discovered file
paths, `get_full_path` prints a failure message and returns the `None`
sentinel instead of raising; for every relative path with at least one
match it returns the first matching full path (without the message). -/
theorem get_full_path_first_match_or_sentinel
    (image_paths : List String) (relative_path : String) :
    ((∀ f ∈ image_paths, pyEndsWith f relative_path = false) →
      get_full_path image_paths relative_path = (none, true)) ∧
    (∀ pre q post, image_paths = pre ++ q :: post →
      pyEndsWith q relative_path = true →
      (∀ r ∈ pre, pyEndsWith r relative_path = false) →
      get_full_path image_paths relative_path = (some q, false)) := by
  constructor
  · intro hnone
    have hfil : image_paths.filter (fun f => pyEndsWith f relative_path) = [] := by
      rw [List.filter_eq_nil_iff]
      intro a ha
      simp [hnone a ha]
    simp [get_full_path, hfil]
  · intro pre q post hsplit hq hpre
    have hfilpre : pre.filter (fun f => pyEndsWith f relative_path) = [] := by
      rw [List.filter_eq_nil_iff]
      intro a ha
      simp [hpre a ha]
    subst hsplit
    simp [get_full_path, List.filter_append, hfilpre, List.filter_cons, hq]

/-- Closed instance of `get_full_path_first_match_or_sentinel`: one list
with a match (the first of two matching candidates wins) and one without. -/
theorem get_full_path_first_match_or_sentinel_spot :
    get_full_path ["/d/a.tif", "/d/b.tif", "/e/b.tif"] "b.tif" =
      (some "/d/b.tif", false) ∧
    get_full_path ["/d/a.tif"] "c.tif" = (none, true) := by
  constructor
  · exact (get_full_path_first_match_or_sentinel
        ["/d/a.tif", "/d/b.tif", "/e/b.tif"] "b.tif").2
      ["/d/a.tif"] "/d/b.tif" ["/e/b.tif"] rfl (by decide) (by decide)
  · exact (get_full_path_first_match_or_sentinel ["/d/a.tif"] "c.tif").1
      (by decide)

/-- Claim C5: `read_db` returns the empty placeholder dataset whenever opening
the dataset file raises `FileNotFoundError`, and otherwise returns the
dataset opened from the path given by `get_db_path`; no error propagates in
the missing-file case. -/
theorem read_db_fallback (fs : FileSys) (base_dir : String) (isDir : Bool) :
    (open_dataset fs (get_db_path base_dir isDir) = .error .fileNotFound →
      read_db fs base_dir isDir = .ok emptyDB) ∧
    (∀ d, open_dataset fs (get_db_path base_dir isDir) = .ok d →
      read_db fs base_dir isDir = .ok d) := by
  constructor
  · intro h
    simp [read_db, h]
  · intro d h
    simp [read_db, h]

/-- Closed instance of `read_db_fallback`: a missing dataset file falls
back to the empty dataset, a present one is returned as opened. -/
theorem read_db_fallback_spot :
    read_db [] "/data" true = .ok emptyDB ∧
    read_db [("/data/db.nc", emptyDB)] "/data" true = .ok emptyDB := by
  constructor
  · exact (read_db_fallback [] "/data" true).1 rfl
  · exact (read_db_fallback [("/data/db.nc", emptyDB)] "/data" true).2
      emptyDB rfl

/-- The ten decimal digit characters. -/
def decDigits : List Char := ['0', '1', '2', '3', '4', '5', '6', '7', '8', '9']

theorem digitChar_mod_ten_mem (n : ℕ) : Nat.digitChar (n % 10) ∈ decDigits := by
  have h : n % 10 < 10 := Nat.mod_lt _ (by norm_num)
  generalize n % 10 = m at h
  interval_cases m <;> decide

theorem toDigitsCore_ten_chars (f : ℕ) :
    ∀ (n : ℕ) (ds : List Char) (c : Char),
      c ∈ Nat.toDigitsCore 10 f n ds → c ∈ ds ∨ c ∈ decDigits := by
  induction f with
  | zero =>
    intro n ds c hc
    exact Or.inl hc
  | succ f ih =>
    intro n ds c hc
    rw [Nat.toDigitsCore] at hc
    by_cases h : n / 10 = 0
    · rw [if_pos h] at hc
      rcases List.mem_cons.mp hc with h1 | h1
      · exact Or.inr (h1 ▸ digitChar_mod_ten_mem n)
      · exact Or.inl h1
    · rw [if_neg h] at hc
      rcases ih _ _ _ hc with h1 | h1
      · rcases List.mem_cons.mp h1 with h2 | h2
        · exact Or.inr (h2 ▸ digitChar_mod_ten_mem n)
        · exact Or.inl h2
      · exact Or.inr h1

theorem mem_toDigits_ten (n : ℕ) (c : Char) (hc : c ∈ Nat.toDigits 10 n) :
    c ∈ decDigits := by
  rcases toDigitsCore_ten_chars (n + 1) n [] c hc with h | h
  · cases h
  · exact h

theorem mem_natRepr (n : ℕ) (c : Char) (hc : c ∈ (Nat.repr n).data) :
    c ∈ decDigits := mem_toDigits_ten n c hc

theorem mem_intRepr (n : ℤ) (c : Char) (hc : c ∈ (Int.repr n).data) :
    c = '-' ∨ c ∈ decDigits := by
  cases n with
  | ofNat m => exact Or.inr (mem_natRepr m c hc)
  | negSucc m =>
    have hdata : (Int.repr (Int.negSucc m)).data
        = '-' :: (Nat.repr (m + 1)).data := rfl
    rw [hdata] at hc
    rcases List.mem_cons.mp hc with h1 | h1
    · exact Or.inl h1
    · exact Or.inr (mem_natRepr (m + 1) c h1)

theorem mem_pyStr (v : ℚ) (c : Char) (hc : c ∈ (pyStr v).data) :
    c = '-' ∨ c = '/' ∨ c ∈ decDigits := by
  unfold pyStr at hc
  by_cases h : v.den = 1
  · rw [if_pos h] at hc
    rcases mem_intRepr v.num c hc with h1 | h1
    · exact Or.inl h1
    · exact Or.inr (Or.inr h1)
  · rw [if_neg h, String.data_append, String.data_append] at hc
    rcases List.mem_append.mp hc with h1 | h1
    · rcases List.mem_append.mp h1 with h2 | h2
      · rcases mem_intRepr v.num c h2 with h3 | h3
        · exact Or.inl h3
        · exact Or.inr (Or.inr h3)
      · rcases List.mem_singleton.mp h2 with rfl
        exact Or.inr (Or.inl rfl)
    · exact Or.inr (Or.inr (mem_natRepr v.den c h1))

/-- The decimal rendering of a rational never spells `'INVALID'`. -/
theorem pyStr_ne_INVALID (v : ℚ) : pyStr v ≠ "INVALID" := by
  intro h
  have hI : 'I' ∈ (pyStr v).data := by
    rw [h]
    decide
  rcases mem_pyStr v 'I' hI with h1 | h1 | h1 <;> exact absurd h1 (by decide)

/-- Counterexample to claim C10 as stated: `'frame_rate'` is a key of
`PARAM_GETTERS`, yet on a truthy metadata dictionary lacking the
`'FrameData'` entry the getter's `KeyError` is caught by `get_string`'s
`except KeyError` and `'INVALID'` is returned for this present parameter
name — so `'INVALID'` is not exclusive to absent parameter names. -/
theorem get_string_invalid_counterexample :
    List.lookup "frame_rate" PARAM_GETTERS = some get_frame_rate ∧
    get_string ⟨some ⟨none⟩, "870"⟩ "frame_rate" = .ok "INVALID" :=
  ⟨rfl, rfl⟩

/-- Claim C10 (amended): for every parameter name in `PARAM_GETTERS` whose
getter returns a falsy value — the valid numeric value `0` as well as
`None` — `get_string` returns the placeholder `'---'`, so a genuinely
zero-valued parameter is displayed identically to missing metadata; and
`get_string` yields `'INVALID'` exactly when the parameter name is absent
from `PARAM_GETTERS` or the (present) name's getter raises `KeyError` on a
malformed metadata dictionary. -/
theorem get_string_falsy_placeholder (st : MetaState) (param : String) :
    (∀ g, List.lookup param PARAM_GETTERS = some g →
      (g st = .ok none ∨ g st = .ok (some 0)) →
      get_string st param = .ok "---") ∧
    (get_string st param = .ok "INVALID" ↔
      (List.lookup param PARAM_GETTERS = none ∨
        ∃ g, List.lookup param PARAM_GETTERS = some g ∧
          g st = .error .keyError)) := by
  refine ⟨?_, ?_, ?_⟩
  · intro g hg hfalsy
    rcases hfalsy with h | h <;> simp [get_string, hg, h]
  · intro h
    rcases hl : List.lookup param PARAM_GETTERS with _ | g
    · exact Or.inl rfl
    · refine Or.inr ⟨g, rfl, ?_⟩
      simp only [get_string, hl] at h
      rcases hgst : g st with e | ov
      · rcases e <;> rw [hgst] at h <;> first | rfl | cases h
      · exfalso
        rcases ov with _ | v
        · rw [hgst] at h
          have : "---" = "INVALID" := by injection h
          exact absurd this (by decide)
        · rw [hgst] at h
          have h' : Except.ok (ε := PyErr)
              (if v = 0 then "---" else pyStr v) = Except.ok "INVALID" := h
          by_cases hv : v = 0
          · rw [if_pos hv] at h'
            have : "---" = "INVALID" := by injection h'
            exact absurd this (by decide)
          · rw [if_neg hv] at h'
            have : pyStr v = "INVALID" := by injection h'
            exact pyStr_ne_INVALID v this
  · intro h
    rcases h with h | ⟨g, hg, hkey⟩
    · simp [get_string, h]
    · simp [get_string, hg, hkey]

/-- Closed instance of `get_string_falsy_placeholder`: a frame rate that is
genuinely `0` displays as the `'---'` placeholder, while an unknown
parameter name and a present name whose getter hits a missing metadata key
both display as `'INVALID'`. -/
theorem get_string_falsy_placeholder_spot :
    get_string ⟨some ⟨some ⟨some 0, some 1, some 1, some 1, some 1⟩⟩, "870"⟩
      "frame_rate" = .ok "---" ∧
    get_string ⟨some ⟨some ⟨some 0, some 1, some 1, some 1, some 1⟩⟩, "870"⟩
      "bogus" = .ok "INVALID" ∧
    get_string ⟨some ⟨none⟩, "870"⟩ "zoom_factor" = .ok "INVALID" := by
  refine ⟨?_, ?_, ?_⟩
  · exact (get_string_falsy_placeholder
      ⟨some ⟨some ⟨some 0, some 1, some 1, some 1, some 1⟩⟩, "870"⟩
      "frame_rate").1 get_frame_rate rfl (Or.inr rfl)
  · exact (get_string_falsy_placeholder
      ⟨some ⟨some ⟨some 0, some 1, some 1, some 1, some 1⟩⟩, "870"⟩
      "bogus").2.mpr (Or.inl rfl)
  · exact (get_string_falsy_placeholder ⟨some ⟨none⟩, "870"⟩
      "zoom_factor").2.mpr (Or.inr ⟨get_zoom_factor, rfl, rfl⟩)

theorem fillRows_append (params : ℕ → Option (List ℚ)) (l1 l2 : List ℕ) :
    ∀ table, fillRows params (l1 ++ l2) table =
      (fillRows params l1 table).bind (fillRows params l2) := by
  induction l1 with
  | nil =>
    intro table
    rfl
  | cons i rest ih =>
    intro table
    rcases hp : params i with _ | row
    · simp [fillRows, hp]
    · by_cases h : i < table.length
      · simp only [List.cons_append, fillRows, hp, if_pos h]
        exact ih _
      · simp [fillRows, hp, h]

theorem fillRows_range_spec (params : ℕ → Option (List ℚ)) (n : ℕ)
    (table : CoordTable)
    (hok : ∀ i, i < n → (params i).isSome)
    (hn : n ≤ table.length) :
    ∃ out, fillRows params (List.range n) table = some out ∧
      out.length = table.length ∧
      (∀ j, j < n → out[j]? = (params j).map (fun row => row.map some)) ∧
      (∀ j, n ≤ j → out[j]? = table[j]?) := by
  induction n with
  | zero =>
    exact ⟨table, rfl, rfl, fun j hj => absurd hj (Nat.not_lt_zero j),
      fun j _ => rfl⟩
  | succ n ih =>
    obtain ⟨out, hout, hlen, hlow, hhigh⟩ :=
      ih (fun i hi => hok i (Nat.lt_succ_of_lt hi)) (Nat.le_of_succ_le hn)
    rcases hpn : params n with _ | row
    · have := hok n (Nat.lt_succ_self n)
      rw [hpn] at this
      cases this
    · have hn' : n < out.length := by
        rw [hlen]
        omega
      refine ⟨out.set n (row.map some), ?_, ?_, ?_, ?_⟩
      · rw [List.range_succ, fillRows_append, hout]
        simp [fillRows, hpn, hn']
      · simp [hlen]
      · intro j hj
        by_cases hjn : j = n
        · subst hjn
          rw [List.getElem?_set_self hn', hpn]
          rfl
        · have hj' : j < n := by omega
          rw [List.getElem?_set_ne (by omega), hlow j hj']
      · intro j hj
        rw [List.getElem?_set_ne (by omega), hhigh j (by omega)]

theorem get_roi_params_eq (rois : RoiData) (i : ℕ) (a b c d : ℚ)
    (ha : rois.x[i]? = some a) (hb : rois.y[i]? = some b)
    (hc : rois.width[i]? = some c) (hd : rois.height[i]? = some d) :
    get_roi_params rois i = some [a, b, c, d] := by
  unfold get_roi_params
  rw [ha, hb, hc, hd]

theorem get_roi_params_isSome (rois : RoiData) (i : ℕ)
    (hx : i < rois.x.length) (hy : i < rois.y.length)
    (hw : i < rois.width.length) (hh : i < rois.height.length) :
    (get_roi_params rois i).isSome := by
  rw [get_roi_params_eq rois i _ _ _ _ (List.getElem?_eq_getElem hx)
    (List.getElem?_eq_getElem hy) (List.getElem?_eq_getElem hw)
    (List.getElem?_eq_getElem hh)]
  rfl

theorem get_vector_params_eq (vecs : VecData) (i : ℕ) (xp yp : ℚ × ℚ)
    (ha : vecs.xs[i]? = some xp) (hb : vecs.ys[i]? = some yp) :
    get_vector_params vecs i = some [xp.1, xp.2, yp.1, yp.2] := by
  unfold get_vector_params
  rw [ha, hb]

theorem get_vector_params_isSome (vecs : VecData) (i : ℕ)
    (hx : i < vecs.xs.length) (hy : i < vecs.ys.length) :
    (get_vector_params vecs i).isSome := by
  rw [get_vector_params_eq vecs i _ _ (List.getElem?_eq_getElem hx)
    (List.getElem?_eq_getElem hy)]
  rfl

/-- Claim C3: The ROI and vector coordinate tables are fixed-capacity
50-by-4 arrays: for a selection of `n ≤ 50` ROIs (resp. vectors), rows
`0..n-1` hold that ROI's `(x, y, width, height)` — resp. that vector's
`(x_start, x_end, y_start, y_end)` — in selection order, and every entry of
the remaining rows is the NaN sentinel. -/
theorem roi_vector_tables_fixed_capacity (rois : RoiData) (vecs : VecData)
    (hy : rois.y.length = rois.x.length)
    (hw : rois.width.length = rois.x.length)
    (hh : rois.height.length = rois.x.length)
    (hys : vecs.ys.length = vecs.xs.length)
    (hn : rois.x.length ≤ 50) (hm : vecs.xs.length ≤ 50) :
    ∃ R V, get_roi_data_by_index rois = some R ∧
      get_vector_data_by_index vecs = some V ∧
      R.length = 50 ∧ V.length = 50 ∧
      (∀ (i : ℕ) (a b c d : ℚ), rois.x[i]? = some a → rois.y[i]? = some b →
        rois.width[i]? = some c → rois.height[i]? = some d →
        R[i]? = some [some a, some b, some c, some d]) ∧
      (∀ i, rois.x.length ≤ i → i < 50 →
        R[i]? = some (List.replicate 4 none)) ∧
      (∀ (i : ℕ) (xp yp : ℚ × ℚ), vecs.xs[i]? = some xp →
        vecs.ys[i]? = some yp →
        V[i]? = some [some xp.1, some xp.2, some yp.1, some yp.2]) ∧
      (∀ i, vecs.xs.length ≤ i → i < 50 →
        V[i]? = some (List.replicate 4 none)) := by
  have hlen50 : npFull50x4.length = 50 := by
    simp [npFull50x4]
  obtain ⟨R, hR, hRlen, hRlow, hRhigh⟩ :=
    fillRows_range_spec (get_roi_params rois) rois.x.length npFull50x4
      (fun i hi => get_roi_params_isSome rois i hi (hy ▸ hi) (hw ▸ hi) (hh ▸ hi))
      (by omega)
  obtain ⟨V, hV, hVlen, hVlow, hVhigh⟩ :=
    fillRows_range_spec (get_vector_params vecs) vecs.xs.length npFull50x4
      (fun i hi => get_vector_params_isSome vecs i hi (hys ▸ hi))
      (by omega)
  refine ⟨R, V, hR, hV, by omega, by omega, ?_, ?_, ?_, ?_⟩
  · intro i a b c d ha hb hc hd
    have hi : i < rois.x.length := (List.getElem?_eq_some_iff.mp ha).1
    rw [hRlow i hi, get_roi_params_eq rois i a b c d ha hb hc hd]
    rfl
  · intro i hi h50
    rw [hRhigh i hi, npFull50x4, List.getElem?_replicate, if_pos h50]
  · intro i xp yp ha hb
    have hi : i < vecs.xs.length := (List.getElem?_eq_some_iff.mp ha).1
    rw [hVlow i hi, get_vector_params_eq vecs i xp yp ha hb]
    rfl
  · intro i hi h50
    rw [hVhigh i hi, npFull50x4, List.getElem?_replicate, if_pos h50]

/-- Closed instance of `roi_vector_tables_fixed_capacity`: one ROI and one
vector; row 0 holds the coordinates, row 7 (as every later row) the NaN
padding. -/
theorem roi_vector_tables_fixed_capacity_spot :
    ∃ R V, get_roi_data_by_index ⟨[1], [2], [3], [4]⟩ = some R ∧
      get_vector_data_by_index ⟨[(5, 6)], [(7, 8)]⟩ = some V ∧
      R[0]? = some [some 1, some 2, some 3, some 4] ∧
      R[7]? = some (List.replicate 4 none) ∧
      V[0]? = some [some 5, some 6, some 7, some 8] ∧
      V[7]? = some (List.replicate 4 none) := by
  obtain ⟨R, V, hR, hV, _, _, hrow, hpad, hvrow, hvpad⟩ :=
    roi_vector_tables_fixed_capacity ⟨[1], [2], [3], [4]⟩ ⟨[(5, 6)], [(7, 8)]⟩
      rfl rfl rfl rfl (by norm_num) (by norm_num)
  exact ⟨R, V, hR, hV, hrow 0 1 2 3 4 rfl rfl rfl rfl,
    hpad 7 (by norm_num) (by norm_num),
    hvrow 0 (5, 6) (7, 8) rfl rfl, hvpad 7 (by norm_num) (by norm_num)⟩

theorem fillRows_range_overflow (params : ℕ → Option (List ℚ)) (n : ℕ)
    (table : CoordTable)
    (hok : ∀ i, i ≤ table.length → (params i).isSome)
    (hn : table.length < n) :
    fillRows params (List.range n) table = none := by
  induction n with
  | zero => omega
  | succ m ih =>
    rw [List.range_succ, fillRows_append]
    by_cases h : table.length < m
    · rw [ih h]
      rfl
    · have hm : m = table.length := by omega
      obtain ⟨out, hout, hlen, _, _⟩ :=
        fillRows_range_spec params m table
          (fun i hi => hok i (by omega)) (by omega)
      rw [hout]
      have hge : ¬ m < out.length := by omega
      rcases hp : params m with _ | row
      · have := hok m (by omega)
        rw [hp] at this
        cases this
      · simp [fillRows, hp, hge]

/-- Claim C8: The 50-row capacity of the coordinate tables is an unchecked
precondition: any aligned selection of more than 50 ROIs makes
`get_roi_data_by_index` attempt to write a row index of 50 or greater into
its 50-by-4 array and fail with an out-of-bounds error, while under the
precondition of at most 50 ROIs the error branch is unreachable; the same
holds of `get_vector_data_by_index` and vectors. -/
theorem roi_vector_tables_capacity_unchecked (rois : RoiData) (vecs : VecData)
    (hy : rois.y.length = rois.x.length)
    (hw : rois.width.length = rois.x.length)
    (hh : rois.height.length = rois.x.length)
    (hys : vecs.ys.length = vecs.xs.length) :
    (50 < rois.x.length → get_roi_data_by_index rois = none) ∧
    (rois.x.length ≤ 50 → (get_roi_data_by_index rois).isSome) ∧
    (50 < vecs.xs.length → get_vector_data_by_index vecs = none) ∧
    (vecs.xs.length ≤ 50 → (get_vector_data_by_index vecs).isSome) := by
  have hlen50 : npFull50x4.length = 50 := by
    simp [npFull50x4]
  refine ⟨?_, ?_, ?_, ?_⟩
  · intro hgt
    exact fillRows_range_overflow (get_roi_params rois) rois.x.length npFull50x4
      (fun i hi => get_roi_params_isSome rois i (by omega) (by omega)
        (by omega) (by omega))
      (by omega)
  · intro hle
    obtain ⟨R, hR, -, -, -⟩ :=
      fillRows_range_spec (get_roi_params rois) rois.x.length npFull50x4
        (fun i hi => get_roi_params_isSome rois i hi (by omega) (by omega)
          (by omega))
        (by omega)
    rw [get_roi_data_by_index, hR]
    rfl
  · intro hgt
    exact fillRows_range_overflow (get_vector_params vecs) vecs.xs.length
      npFull50x4
      (fun i hi => get_vector_params_isSome vecs i (by omega) (by omega))
      (by omega)
  · intro hle
    obtain ⟨V, hV, -, -, -⟩ :=
      fillRows_range_spec (get_vector_params vecs) vecs.xs.length npFull50x4
        (fun i hi => get_vector_params_isSome vecs i hi (by omega))
        (by omega)
    rw [get_vector_data_by_index, hV]
    rfl

/-- Closed instance of `roi_vector_tables_capacity_unchecked`: 51 ROIs
(resp. vectors) overflow the table, one ROI (resp. vector) does not. -/
theorem roi_vector_tables_capacity_unchecked_spot :
    get_roi_data_by_index ⟨List.replicate 51 1, List.replicate 51 1,
      List.replicate 51 1, List.replicate 51 1⟩ = none ∧
    (get_roi_data_by_index ⟨[1], [1], [1], [1]⟩).isSome ∧
    get_vector_data_by_index ⟨List.replicate 51 (1, 1),
      List.replicate 51 (1, 1)⟩ = none ∧
    (get_vector_data_by_index ⟨[(1, 1)], [(1, 1)]⟩).isSome := by
  refine ⟨?_, ?_, ?_, ?_⟩
  · exact (roi_vector_tables_capacity_unchecked
      ⟨List.replicate 51 1, List.replicate 51 1, List.replicate 51 1,
        List.replicate 51 1⟩ ⟨[], []⟩
      (by simp) (by simp) (by simp) (by simp)).1 (by simp)
  · exact (roi_vector_tables_capacity_unchecked ⟨[1], [1], [1], [1]⟩ ⟨[], []⟩
      rfl rfl rfl rfl).2.1 (by norm_num)
  · exact (roi_vector_tables_capacity_unchecked ⟨[], [], [], []⟩
      ⟨List.replicate 51 (1, 1), List.replicate 51 (1, 1)⟩
      rfl rfl rfl (by simp)).2.2.1 (by simp)
  · exact (roi_vector_tables_capacity_unchecked ⟨[], [], [], []⟩
      ⟨[(1, 1)], [(1, 1)]⟩ rfl rfl rfl rfl).2.2.2 (by norm_num)

theorem frameMax_shape (hh ww : ℕ) (a b : List (List ℤ))
    (ha : FrameShape hh ww a) (hb : FrameShape hh ww b) :
    FrameShape hh ww (frameMax a b) := by
  obtain ⟨hal, har⟩ := ha
  obtain ⟨hbl, hbr⟩ := hb
  constructor
  · simp [frameMax, hal, hbl]
  · intro row hrow
    rw [List.mem_iff_getElem?] at hrow
    obtain ⟨i, hrow⟩ := hrow
    rw [frameMax, List.getElem?_zipWith] at hrow
    rcases hai : a[i]? with _ | ra <;> rw [hai] at hrow <;>
      rcases hbi : b[i]? with _ | rb <;> rw [hbi] at hrow <;>
      cases hrow
    rw [List.length_zipWith, har ra (List.getElem?_mem hai),
      hbr rb (List.getElem?_mem hbi)]
    omega

theorem px_frameMax (hh ww : ℕ) (a b : List (List ℤ)) (i j : ℕ)
    (ha : FrameShape hh ww a) (hb : FrameShape hh ww b)
    (hi : i < hh) (hj : j < ww) :
    px (frameMax a b) i j = max (px a i j) (px b i j) := by
  obtain ⟨hal, har⟩ := ha
  obtain ⟨hbl, hbr⟩ := hb
  have hia : i < a.length := by omega
  have hib : i < b.length := by omega
  have hja : j < a[i].length := by
    rw [har _ (List.getElem_mem hia)]
    exact hj
  have hjb : j < b[i].length := by
    rw [hbr _ (List.getElem_mem hib)]
    exact hj
  simp only [px, frameMax, List.getD_eq_getElem?_getD, List.getElem?_zipWith,
    List.getElem?_eq_getElem hia, List.getElem?_eq_getElem hib,
    Option.getD_some, List.getElem?_eq_getElem hja,
    List.getElem?_eq_getElem hjb]

theorem foldl_frameMax_shape (hh ww : ℕ) (ms : List (List (List ℤ))) :
    ∀ acc, FrameShape hh ww acc → (∀ m ∈ ms, FrameShape hh ww m) →
      FrameShape hh ww (ms.foldl frameMax acc) := by
  induction ms with
  | nil =>
    intro acc hacc _
    exact hacc
  | cons m rest ih =>
    intro acc hacc hms
    exact ih (frameMax acc m)
      (frameMax_shape hh ww acc m hacc (hms m (List.mem_cons_self _ _)))
      (fun x hx => hms x (List.mem_cons_of_mem m hx))

theorem px_foldl_frameMax (hh ww : ℕ) (i j : ℕ) (hi : i < hh) (hj : j < ww)
    (ms : List (List (List ℤ))) :
    ∀ acc, FrameShape hh ww acc → (∀ m ∈ ms, FrameShape hh ww m) →
      px (ms.foldl frameMax acc) i j =
        (ms.map (fun m => px m i j)).foldl max (px acc i j) := by
  induction ms with
  | nil =>
    intro acc _ _
    rfl
  | cons m rest ih =>
    intro acc hacc hms
    have hm : FrameShape hh ww m := hms m (List.mem_cons_self _ _)
    have hrest : ∀ x ∈ rest, FrameShape hh ww x :=
      fun x hx => hms x (List.mem_cons_of_mem m hx)
    simp only [List.foldl_cons, List.map_cons]
    rw [ih (frameMax acc m) (frameMax_shape hh ww acc m hacc hm) hrest,
      px_frameMax hh ww acc m i j hacc hm hi hj]

theorem foldl_max_bounds (l : List ℤ) :
    ∀ a : ℤ, a ≤ l.foldl max a ∧ ∀ x ∈ l, x ≤ l.foldl max a := by
  induction l with
  | nil =>
    intro a
    exact ⟨le_rfl, fun x hx => absurd hx (List.not_mem_nil x)⟩
  | cons y ys ih =>
    intro a
    obtain ⟨h1, h2⟩ := ih (max a y)
    refine ⟨le_trans (le_max_left a y) h1, ?_⟩
    intro x hx
    rcases List.mem_cons.mp hx with rfl | hx
    · exact le_trans (le_max_right a x) h1
    · exact h2 x hx

theorem foldl_max_attained (l : List ℤ) :
    ∀ a : ℤ, l.foldl max a = a ∨ l.foldl max a ∈ l := by
  induction l with
  | nil =>
    intro a
    exact Or.inl rfl
  | cons y ys ih =>
    intro a
    rcases ih (max a y) with h | h
    · rcases max_choice a y with hc | hc
      · exact Or.inl (by rw [List.foldl_cons, h, hc])
      · exact Or.inr (by rw [List.foldl_cons, h, hc]; exact (List.mem_cons_self _ _))
    · exact Or.inr (List.mem_cons_of_mem y h)

/-- Claim C6: For every (nonempty, rectangular) 3-dimensional time-stack
image, `calculate_2d_projection` returns the maximum-intensity flattening
over the time axis: a single 2D frame whose pixel `(i, j)` equals the
maximum over all frames `t` of `image[t, i, j]`. -/
theorem calculate_2d_projection_is_max (image : List (List (List ℤ)))
    (hh ww : ℕ) (hshape : ∀ fr ∈ image, FrameShape hh ww fr)
    (hne : image ≠ []) (i j : ℕ) (hi : i < hh) (hj : j < ww) :
    ∃ proj, calculate_2d_projection image = some proj ∧
      FrameShape hh ww proj ∧
      (∀ fr ∈ image, px fr i j ≤ px proj i j) ∧
      (∃ fr ∈ image, px proj i j = px fr i j) := by
  rcases image with _ | ⟨f, rest⟩
  · exact absurd rfl hne
  have hf : FrameShape hh ww f := hshape f (List.mem_cons_self _ _)
  have hrest : ∀ x ∈ rest, FrameShape hh ww x :=
    fun x hx => hshape x (List.mem_cons_of_mem f hx)
  refine ⟨rest.foldl frameMax f, rfl,
    foldl_frameMax_shape hh ww rest f hf hrest, ?_, ?_⟩
  · intro fr hfr
    rw [px_foldl_frameMax hh ww i j hi hj rest f hf hrest]
    obtain ⟨h1, h2⟩ := foldl_max_bounds (rest.map (fun m => px m i j)) (px f i j)
    rcases List.mem_cons.mp hfr with rfl | hfr
    · exact h1
    · exact h2 _ (List.mem_map_of_mem _ hfr)
  · rw [px_foldl_frameMax hh ww i j hi hj rest f hf hrest]
    rcases foldl_max_attained (rest.map (fun m => px m i j)) (px f i j) with h | h
    · exact ⟨f, List.mem_cons_self _ _, h⟩
    · rw [List.mem_map] at h
      obtain ⟨fr, hfr, hfr2⟩ := h
      exact ⟨fr, List.mem_cons_of_mem f hfr, hfr2.symm⟩

/-- Closed instance of `calculate_2d_projection_is_max`: a two-frame
2-by-2 stack whose pixelwise maximum mixes both frames. -/
theorem calculate_2d_projection_is_max_spot :
    ∃ proj, calculate_2d_projection [[[1, 5], [3, 0]], [[2, 4], [0, 7]]] =
      some proj ∧
      (∀ fr ∈ [[[1, 5], [3, 0]], [[2, 4], [0, 7]]],
        px fr 1 1 ≤ px proj 1 1) ∧
      (∃ fr ∈ [[[1, 5], [3, 0]], [[2, 4], [0, 7]]], px proj 1 1 = px fr 1 1) := by
  obtain ⟨proj, hproj, -, hub, hat⟩ :=
    calculate_2d_projection_is_max [[[1, 5], [3, 0]], [[2, 4], [0, 7]]] 2 2
      (by decide) (by simp) 1 1 (by norm_num) (by norm_num)
  exact ⟨proj, hproj, hub, hat⟩

theorem pySlice_of_bounds {α : Type} (l : List α) (s e : ℤ)
    (hs : 0 ≤ s) (he : e ≤ l.length) (hse : s ≤ e) :
    pySlice l s e = (l.drop s.toNat).take (e.toNat - s.toNat) := by
  simp only [pySlice]
  rw [if_neg (by omega : ¬ s < 0), if_neg (by omega : ¬ e < 0),
    min_eq_left (by omega : s ≤ (l.length : ℤ)), min_eq_left he]

theorem pySlice_length_of_bounds {α : Type} (l : List α) (s e : ℤ)
    (hs : 0 ≤ s) (he : e ≤ l.length) (hse : s ≤ e) :
    (pySlice l s e).length = (e - s).toNat := by
  rw [pySlice_of_bounds l s e hs he hse, List.length_take, List.length_drop]
  omega

theorem pySlice_mem {α : Type} (l : List α) (s e : ℤ) (a : α)
    (ha : a ∈ pySlice l s e) : a ∈ l := by
  unfold pySlice at ha
  exact List.mem_of_mem_drop (List.mem_of_mem_take ha)

/-- Claim C9: For every stored ROI, the region `get_roi_data` extracts spans
columns `x_center - w//2` (inclusive) to `x_center + w//2` (exclusive) of
rows `y_center - h//2` to `y_center + h//2`, where `w`/`h` are the rounded
width/height; so for odd rounded width the region is `2*(w//2) = w - 1`
pixels wide — one pixel narrower than the ROI's rounded width — and only
for even rounded width does it match, and likewise for the height. -/
theorem get_roi_data_off_by_one (rois : RoiData)
    (image : List (List (List ℤ))) (roi_index frame : ℕ) (wq hq xq yq : ℚ)
    (fr : List (List ℤ)) (H W : ℕ)
    (hwq : rois.width[roi_index]? = some wq)
    (hhq : rois.height[roi_index]? = some hq)
    (hxq : rois.x[roi_index]? = some xq)
    (hyq : rois.y[roi_index]? = some yq)
    (hfr : image[frame]? = some fr)
    (hshape : FrameShape H W fr)
    (hwpos : 0 ≤ pyRound wq) (hhpos : 0 ≤ pyRound hq)
    (hxlo : 0 ≤ pyRound xq - (pyRound wq).fdiv 2)
    (hxhi : pyRound xq + (pyRound wq).fdiv 2 ≤ W)
    (hylo : 0 ≤ pyRound yq - (pyRound hq).fdiv 2)
    (hyhi : pyRound yq + (pyRound hq).fdiv 2 ≤ H) :
    ∃ region, get_roi_data rois image roi_index frame = some region ∧
      region =
        (pySlice fr (pyRound yq - (pyRound hq).fdiv 2)
            (pyRound yq + (pyRound hq).fdiv 2)).map
          (fun row => pySlice row (pyRound xq - (pyRound wq).fdiv 2)
            (pyRound xq + (pyRound wq).fdiv 2)) ∧
      region.length = (2 * (pyRound hq).fdiv 2).toNat ∧
      (∀ row ∈ region, row.length = (2 * (pyRound wq).fdiv 2).toNat) ∧
      (Odd (pyRound wq) → 2 * (pyRound wq).fdiv 2 = pyRound wq - 1) ∧
      (Even (pyRound wq) → 2 * (pyRound wq).fdiv 2 = pyRound wq) ∧
      (Odd (pyRound hq) → 2 * (pyRound hq).fdiv 2 = pyRound hq - 1) ∧
      (Even (pyRound hq) → 2 * (pyRound hq).fdiv 2 = pyRound hq) := by
  obtain ⟨hfrl, hfrr⟩ := hshape
  have hwdiv : 0 ≤ (pyRound wq).fdiv 2 := Int.fdiv_nonneg hwpos (by omega)
  have hhdiv : 0 ≤ (pyRound hq).fdiv 2 := Int.fdiv_nonneg hhpos (by omega)
  refine ⟨_, ?_, rfl, ?_, ?_, ?_, ?_, ?_, ?_⟩
  · simp [get_roi_data, hwq, hhq, hxq, hyq, hfr]
  · rw [List.length_map,
      pySlice_length_of_bounds fr _ _ (by omega) (by omega) (by omega)]
    omega
  · intro row hrow
    rw [List.mem_map] at hrow
    obtain ⟨r, hr, hrow⟩ := hrow
    have hrW : r.length = W := hfrr r (pySlice_mem _ _ _ r hr)
    rw [← hrow, pySlice_length_of_bounds r _ _ (by omega) (by omega)
      (by omega)]
    omega
  · intro hodd
    obtain ⟨k, hk⟩ := hodd
    rw [Int.fdiv_eq_ediv _ (by omega)]
    omega
  · intro heven
    obtain ⟨k, hk⟩ := heven
    rw [Int.fdiv_eq_ediv _ (by omega)]
    omega
  · intro hodd
    obtain ⟨k, hk⟩ := hodd
    rw [Int.fdiv_eq_ediv _ (by omega)]
    omega
  · intro heven
    obtain ⟨k, hk⟩ := heven
    rw [Int.fdiv_eq_ediv _ (by omega)]
    omega

/-- Closed instance of `get_roi_data_off_by_one`: an ROI of rounded width 3
and height 4 centred at (5, 5) of a 10-by-10 frame yields a 4-row region
only 2 pixels wide. -/
theorem get_roi_data_off_by_one_spot :
    ∃ region, get_roi_data ⟨[5], [5], [3], [4]⟩
        [List.replicate 10 (List.replicate 10 0)] 0 0 = some region ∧
      region.length = 4 ∧ ∀ row ∈ region, row.length = 2 := by
  have h3 : pyRound 3 = 3 := by norm_num [pyRound]
  have h4 : pyRound 4 = 4 := by norm_num [pyRound]
  have h5 : pyRound 5 = 5 := by norm_num [pyRound]
  obtain ⟨region, hreg, -, hlen, hrows, -, -, -, -⟩ :=
    get_roi_data_off_by_one ⟨[5], [5], [3], [4]⟩
      [List.replicate 10 (List.replicate 10 0)] 0 0 3 4 5 5
      (List.replicate 10 (List.replicate 10 0)) 10 10
      rfl rfl rfl rfl rfl (by decide)
      (by rw [h3]; decide) (by rw [h4]; decide)
      (by rw [h5, h3]; decide) (by rw [h5, h3]; decide)
      (by rw [h5, h4]; decide) (by rw [h5, h4]; decide)
  refine ⟨region, hreg, ?_, ?_⟩
  · rw [hlen, h4]
    decide
  · intro row hrow
    rw [hrows row hrow, h3]
    decide

theorem update_val_q (a b : ℚ) :
    (if (Val.q a != Val.q b) then b else a) = b := by
  by_cases h : a = b
  · simp [h]
  · rw [if_pos (bne_iff_ne.mpr (fun hq => h (Val.q.inj hq)))]

theorem update_val_z (a b : ℤ) :
    (if (Val.z a != Val.z b) then b else a) = b := by
  by_cases h : a = b
  · simp [h]
  · rw [if_pos (bne_iff_ne.mpr (fun hq => h (Val.z.inj hq)))]

theorem update_record_eq (stored dv : DataRecord) :
    update_record stored dv = dv := by
  cases stored
  cases dv
  simp [update_record, DataRecord.get, py_tolist_neq, update_val_q,
    update_val_z]

theorem Field_mem_all (f : Field) : f ∈ Field.all := by
  cases f <;> decide

theorem mem_written_fields (stored dv : DataRecord) (f : Field) :
    f ∈ written_fields stored dv ↔
      (f = .projection_2d ∨ f = .roi_data ∨ f = .vector_data ∨
        stored.get f ≠ dv.get f) := by
  unfold written_fields
  rw [List.mem_filter]
  cases f <;> simp [py_tolist_neq, Field_mem_all]

theorem lookup_exists_of_mem (db : DB) (path : String)
    (hmem : path ∈ db.map Prod.fst) :
    ∃ stored, List.lookup path db = some stored := by
  induction db with
  | nil => cases hmem
  | cons e rest ih =>
    rcases e with ⟨k, v⟩
    rw [List.map_cons, List.mem_cons] at hmem
    by_cases h : path = k
    · exact ⟨v, by simp [List.lookup, h]⟩
    · rcases hmem with h1 | h1
      · exact absurd h1 h
      · obtain ⟨stored, hs⟩ := ih h1
        refine ⟨stored, ?_⟩
        simpa [List.lookup, beq_eq_false_iff_ne.mpr h] using hs

theorem lookup_map_update (db : DB) (path : String) (dv stored : DataRecord)
    (hs : List.lookup path db = some stored) :
    List.lookup path (db.map
        (fun e => if e.1 = path then (e.1, update_record e.2 dv) else e)) =
      some (update_record stored dv) := by
  induction db with
  | nil => cases hs
  | cons e rest ih =>
    rcases e with ⟨k, v⟩
    by_cases h : path = k
    · subst h
      simp only [List.lookup, beq_self_eq_true] at hs
      injection hs with hs
      subst hs
      rw [List.map_cons,
        if_pos (show ((path, v) : String × DataRecord).1 = path from rfl)]
      simp [List.lookup]
    · simp only [List.lookup, beq_eq_false_iff_ne.mpr h] at hs
      by_cases hk : k = path
      · exact absurd hk.symm h
      · simp only [List.map_cons, if_neg hk]
        simpa [List.lookup, beq_eq_false_iff_ne.mpr h] using ih hs

theorem map_fst_update (db : DB) (path : String) (dv : DataRecord) :
    (db.map
        (fun e => if e.1 = path then (e.1, update_record e.2 dv) else e)).map
      Prod.fst = db.map Prod.fst := by
  rw [List.map_map]
  congr 1
  funext e
  by_cases h : e.1 = path <;> simp [Function.comp, h]

theorem lookup_append_right (db : DB) (path : String) (dv : DataRecord)
    (hmem : path ∉ db.map Prod.fst) :
    List.lookup path (db ++ [(path, dv)]) = some dv := by
  induction db with
  | nil => simp [List.lookup]
  | cons e rest ih =>
    rcases e with ⟨k, v⟩
    rw [List.map_cons, List.mem_cons] at hmem
    push_neg at hmem
    rw [List.cons_append]
    simpa [List.lookup, beq_eq_false_iff_ne.mpr hmem.1] using ih hmem.2

theorem fsLookup_remove (fs : FileSys) (p : String) :
    fsLookup (applyOp fs (.remove p)) p = none := by
  induction fs with
  | nil => rfl
  | cons e rest ih =>
    rcases e with ⟨k, v⟩
    by_cases h : k = p
    · simpa [applyOp, fsLookup, h] using ih
    · simpa [applyOp, fsLookup, h, List.lookup,
        beq_eq_false_iff_ne.mpr (fun hkp => h hkp.symm)] using ih

theorem fsLookup_write (fs : FileSys) (p : String) (d : DB) :
    fsLookup (applyOp fs (.write p d)) p = some d := by
  simp [applyOp, fsLookup, List.lookup]

theorem create_data_dict_flags (st : AppState) (dv : DataRecord)
    (h : create_data_dict st = some dv) :
    dv.corr_calc_state = 0 ∧ dv.fitting_state = 0 := by
  rw [create_data_dict] at h
  split at h
  · cases h
    exact ⟨rfl, rfl⟩
  · cases h

/-- Claim C7: Every record written by `save` carries the two
downstream-processing state flags `corr_calc_state` and `fitting_state`,
and both are the placeholder `0` on every save, for new and existing paths
alike. -/
theorem save_state_flags_zero (st : AppState) (fs : FileSys)
    (path db_path : String) (out : SaveOut)
    (hsave : save st fs path db_path = some out) :
    ∃ r, List.lookup path out.db = some r ∧
      r.corr_calc_state = 0 ∧ r.fitting_state = 0 := by
  rcases hdv : create_data_dict st with _ | dv
  · rw [save, hdv] at hsave
    cases hsave
  obtain ⟨hc, hf⟩ := create_data_dict_flags st dv hdv
  rw [save] at hsave
  simp only [hdv] at hsave
  rcases hfile : fsLookup fs db_path with _ | db <;>
    simp only [hfile] at hsave
  · cases hsave
    refine ⟨dv, ?_, hc, hf⟩
    simp [create_coords_dict, List.lookup]
  · by_cases hmem : path ∈ db.map Prod.fst
    · rw [if_pos hmem] at hsave
      obtain ⟨stored, hstored⟩ := lookup_exists_of_mem db path hmem
      rw [hstored] at hsave
      cases hsave
      refine ⟨update_record stored dv,
        lookup_map_update db path dv stored hstored, ?_, ?_⟩
      · rw [update_record_eq]
        exact hc
      · rw [update_record_eq]
        exact hf
    · rw [if_neg hmem] at hsave
      cases hsave
      exact ⟨dv, lookup_append_right db path dv hmem, hc, hf⟩

/-- Claim C1 (amended): when the dataset file already exists on disk: if
the current image's full path is already a key of the dataset, `save` runs
the update loop, which assigns each of the four scalar data fields only
when its stored value differs from the in-memory value but assigns the
three array-valued fields (`2d_projection`, `roi_data`, `vector_data`) on
every such save — the source's `tolist()`-versus-`(dims, ndarray)`-tuple
comparison never succeeds for them — leaving the record at the in-memory
data; and if the path is not yet a key, `save` appends a new record keyed
by that path (concatenated along the `path` dimension) with the full set
of data fields. -/
theorem save_existing_file_cases (st : AppState) (fs : FileSys)
    (path db_path : String) (db : DB) (dv : DataRecord)
    (hfile : fsLookup fs db_path = some db)
    (hdv : create_data_dict st = some dv) :
    ∃ out, save st fs path db_path = some out ∧
      (path ∈ db.map Prod.fst →
        ∃ stored, List.lookup path db = some stored ∧
          out.db.map Prod.fst = db.map Prod.fst ∧
          List.lookup path out.db = some (update_record stored dv) ∧
          update_record stored dv = dv ∧
          (∀ f : Field, f ∈ out.written ↔
            (f = .projection_2d ∨ f = .roi_data ∨ f = .vector_data ∨
              stored.get f ≠ dv.get f))) ∧
      (path ∉ db.map Prod.fst →
        out.db = db ++ [(path, dv)] ∧ out.written = []) := by
  by_cases hmem : path ∈ db.map Prod.fst
  · obtain ⟨stored, hstored⟩ := lookup_exists_of_mem db path hmem
    have hsave : save st fs path db_path = some
        { db := db.map
            (fun e => if e.1 = path then (e.1, update_record e.2 dv) else e)
          ops := [.remove db_path, .write db_path (db.map
            (fun e => if e.1 = path then (e.1, update_record e.2 dv) else e))]
          written := written_fields stored dv } := by
      rw [save]
      simp only [hdv, hfile, if_pos hmem, hstored]
    refine ⟨_, hsave, fun _ => ⟨stored, hstored, map_fst_update db path dv,
      lookup_map_update db path dv stored hstored, update_record_eq stored dv,
      fun f => mem_written_fields stored dv f⟩,
      fun hnot => absurd hmem hnot⟩
  · have hsave : save st fs path db_path = some
        { db := db ++ [(path, dv)]
          ops := [.remove db_path, .write db_path (db ++ [(path, dv)])]
          written := [] } := by
      rw [save]
      simp only [hdv, hfile, if_neg hmem, create_coords_dict]
    exact ⟨_, hsave, fun h => absurd h hmem, fun _ => ⟨rfl, rfl⟩⟩

/-- Claim C2: Whenever `save` runs and a dataset file already exists on disk,
the existing file is deleted before the replacement dataset is written, so
`save` is not atomic: the operation trace is exactly a removal of the
dataset file followed by the write, a failure between the two (applying
only the removal) leaves no dataset file, and the old on-disk record set is
gone once the trace completes. -/
theorem save_deletes_before_writing (st : AppState) (fs : FileSys)
    (path db_path : String) (db : DB) (out : SaveOut)
    (hfile : fsLookup fs db_path = some db)
    (hsave : save st fs path db_path = some out) :
    out.ops = [.remove db_path, .write db_path out.db] ∧
    fsLookup (applyOps fs (out.ops.take 1)) db_path = none ∧
    fsLookup (applyOps fs out.ops) db_path = some out.db := by
  rcases hdv : create_data_dict st with _ | dv
  · rw [save, hdv] at hsave
    cases hsave
  rw [save] at hsave
  simp only [hdv, hfile] at hsave
  have hops : out.ops = [.remove db_path, .write db_path out.db] := by
    by_cases hmem : path ∈ db.map Prod.fst
    · rw [if_pos hmem] at hsave
      obtain ⟨stored, hstored⟩ := lookup_exists_of_mem db path hmem
      rw [hstored] at hsave
      cases hsave
      rfl
    · rw [if_neg hmem] at hsave
      cases hsave
      rfl
  refine ⟨hops, ?_, ?_⟩
  · rw [hops]
    exact fsLookup_remove fs db_path
  · rw [hops]
    exact fsLookup_write _ db_path out.db

/-- A minimal application state used in the concrete save scenarios: a
1-by-1-by-1 image, no ROIs or vectors, both rates read as `1`. -/
def stW : AppState := ⟨⟨[], [], [], []⟩, ⟨[], []⟩, [[[0]]], some 1, some 1⟩

/-- The data record `create_data_dict` builds for `stW`. -/
def dvW : DataRecord := ⟨[[0]], 1, 1, npFull50x4, npFull50x4, 0, 0⟩

/-- A stored record for the same image whose line rate differs from
`dvW`. -/
def storedW : DataRecord := ⟨[[0]], 2, 1, npFull50x4, npFull50x4, 0, 0⟩

/-- Counterexample to claim C1 as stated: the dataset file exists and the
record stored at the current path is byte-for-byte the in-memory data — no
stored value differs — yet the update loop still assigns the three
array-valued data variables, because the source compares a `tolist()` list
against a `(dims, ndarray)` tuple, which can never be equal. -/
theorem save_selective_update_counterexample :
    ∃ out, save stW [("/b/db.nc", [("/b/img.tif", dvW)])]
        "/b/img.tif" "/b/db.nc" = some out ∧
      List.lookup "/b/img.tif" [("/b/img.tif", dvW)] = some dvW ∧
      create_data_dict stW = some dvW ∧
      out.written = [.projection_2d, .roi_data, .vector_data] :=
  ⟨_, rfl, rfl, rfl, rfl⟩

/-- Closed instance of `save_existing_file_cases`: updating an existing
path leaves the record at the in-memory values, and the written-field set
is characterised by always-written array fields plus the
stored-versus-in-memory comparison for the scalars. -/
theorem save_existing_file_cases_spot :
    ∃ out, save stW [("/b/db.nc", [("/b/img.tif", storedW)])]
        "/b/img.tif" "/b/db.nc" = some out ∧
      List.lookup "/b/img.tif" out.db = some dvW ∧
      (Field.line_rate ∈ out.written ↔
        (Field.line_rate = Field.projection_2d ∨
          Field.line_rate = Field.roi_data ∨
          Field.line_rate = Field.vector_data ∨
          storedW.get .line_rate ≠ dvW.get .line_rate)) := by
  obtain ⟨out, hs, hex, -⟩ :=
    save_existing_file_cases stW [("/b/db.nc", [("/b/img.tif", storedW)])]
      "/b/img.tif" "/b/db.nc" [("/b/img.tif", storedW)] dvW rfl rfl
  obtain ⟨stored, hstored, -, hlook, hupd, hwr⟩ := hex (by decide)
  have hseq : stored = storedW := by
    rw [show List.lookup "/b/img.tif" [("/b/img.tif", storedW)] =
      some storedW from rfl] at hstored
    exact (Option.some.inj hstored).symm
  subst hseq
  rw [hupd] at hlook
  exact ⟨out, hs, hlook, hwr .line_rate⟩

/-- Closed instance of `save_deletes_before_writing`: with a dataset file
on disk, the trace is remove-then-write and stopping after the removal
leaves no file. -/
theorem save_deletes_before_writing_spot :
    ∃ out, save stW [("/b/db.nc", [])] "/b/img.tif" "/b/db.nc" = some out ∧
      out.ops = [.remove "/b/db.nc", .write "/b/db.nc" out.db] ∧
      fsLookup (applyOps [("/b/db.nc", [])] (out.ops.take 1)) "/b/db.nc" =
        none := by
  have hs : save stW [("/b/db.nc", [])] "/b/img.tif" "/b/db.nc" = some
      ⟨[("/b/img.tif", dvW)],
       [.remove "/b/db.nc", .write "/b/db.nc" [("/b/img.tif", dvW)]],
       []⟩ := rfl
  obtain ⟨hops, hcrash, -⟩ :=
    save_deletes_before_writing stW [("/b/db.nc", [])] "/b/img.tif"
      "/b/db.nc" [] _ rfl hs
  exact ⟨_, hs, hops, hcrash⟩

/-- Closed instance of `save_state_flags_zero`: a fresh save writes both
state flags as `0`. -/
theorem save_state_flags_zero_spot :
    ∃ r, List.lookup "/b/img.tif" [("/b/img.tif", dvW)] = some r ∧
      r.corr_calc_state = 0 ∧ r.fitting_state = 0 :=
  save_state_flags_zero stW [] "/b/img.tif" "/b/db.nc"
    ⟨[("/b/img.tif", dvW)], [.write "/b/db.nc" [("/b/img.tif", dvW)]], []⟩
    rfl

end Flics
